import Mathlib

/-!
Shallow embedding of the squeeb query-builder subsystem
(src/squeeb/query/queries.py, conditions.py, values.py) and proofs of the
specification claims about it.

Python values bound as query arguments are modelled by `PyVal`, with
`PyVal.none` standing for Python `None` (an unset condition value).
-/

namespace Squeeb

/-- Python scalar / list values as they appear in condition values and
value maps.  `PyVal.none` is Python `None`. -/
inductive PyVal where
  | none : PyVal
  | int : Int → PyVal
  | str : String → PyVal
  | list : List PyVal → PyVal
  deriving Repr

/-- Operator enum from queries.py with its SQL renderings. -/
inductive Operator where
  | EQUALS
  | NOT_EQUALS
  | GREATER_THAN
  | GREATER_THAN_EQUALS
  | LESS_THAN
  | LESS_THAN_EQUALS
  | LIKE
  | GLOB
  | IN
  | NOT_IN
  deriving Repr, DecidableEq

/-- SQL text of each operator (`Operator` values in the source). -/
def Operator.value : Operator → String
  | .EQUALS => "="
  | .NOT_EQUALS => "!="
  | .GREATER_THAN => ">"
  | .GREATER_THAN_EQUALS => ">="
  | .LESS_THAN => "<"
  | .LESS_THAN_EQUALS => "<="
  | .LIKE => "LIKE"
  | .GLOB => "GLOB"
  | .IN => "IN"
  | .NOT_IN => "NOT IN"

/-- Junction enum from conditions.py: `AND = " AND "`, `OR = " OR "`. -/
inductive Junction where
  | AND
  | OR
  deriving Repr, DecidableEq

def Junction.value : Junction → String
  | .AND => " AND "
  | .OR => " OR "

/-- Whether the operator is `IN` or `NOT_IN` (the source tests
`self._operator in (Operator.IN, Operator.NOT_IN)`). -/
def isInOp : Operator → Bool
  | .IN => true
  | .NOT_IN => true
  | _ => false

/-- Python `", ".join(...)`: join a list of strings with a separator. -/
def pyJoin (sep : String) : List String → String
  | [] => ""
  | [x] => x
  | x :: y :: xs => x ++ sep ++ pyJoin sep (y :: xs)

/-- Source `_BaseQueryCondition`: a column name (None when absent), a value
(`PyVal.none` when unset), and an operator. -/
structure QueryCondition where
  column : Option String
  value : PyVal
  op : Operator
  deriving Repr

/-- Source `_BaseQueryCondition._get_values`:
`tuple(self._value) if isinstance(self._value, list) else (self._value,)`. -/
def QueryCondition.getValues (c : QueryCondition) : List PyVal :=
  match c.value with
  | .list l => l
  | v => [v]

/-- Source `_BaseQueryCondition.__str__`: empty when column or value is unset;
otherwise `col op placeholder`, where IN/NOT_IN with a list value get one
placeholder per element. -/
def QueryCondition.toStr (c : QueryCondition) : String :=
  match c.column, c.value with
  | Option.none, _ => ""
  | some _, .none => ""
  | some col, v =>
    let vstr : String :=
      match v with
      | .list l =>
        if isInOp c.op then "(" ++ pyJoin ", " (List.replicate l.length "?") ++ ")"
        else "?"
      | _ => "?"
    col ++ " " ++ c.op.value ++ " " ++ vstr

/-- Condition trees: a single condition, a junction token (only occurring
inside a sequence's element list), a condition sequence
(`_BaseQueryConditionSequence._conditions`), or a condition group
(`QueryConditionGroup`: one junction plus a condition list). -/
inductive CondNode where
  | cond : QueryCondition → CondNode
  | junc : Junction → CondNode
  | seq : List CondNode → CondNode
  | group : Junction → List CondNode → CondNode
  deriving Repr

/-- Source `is_ready_for_condition`: the last element of the sequence is a
Junction.  (The source indexes `self._conditions[-1]`; sequences are
always created nonempty.) -/
def seqIsReady (items : List CondNode) : Bool :=
  match items.getLast? with
  | some (.junc _) => true
  | _ => false

mutual

/-- String rendering of a condition tree (`__str__` of each class):
a sequence renders its elements concatenated, or `""` when it ends in a
Junction; a group parenthesizes its members joined by its junction. -/
def CondNode.toStr : CondNode → String
  | .cond c => c.toStr
  | .junc j => j.value
  | .seq items => if seqIsReady items then "" else CondNode.listStr items
  | .group j cs => "(" ++ pyJoin j.value (CondNode.listStrs cs) ++ ")"

/-- Source `"".join(map(str, conditions))` over a sequence's element list. -/
def CondNode.listStr : List CondNode → String
  | [] => ""
  | x :: xs => x.toStr ++ CondNode.listStr xs

/-- Source `map(str, conditions)` over a group's member list. -/
def CondNode.listStrs : List CondNode → List String
  | [] => []
  | x :: xs => x.toStr :: CondNode.listStrs xs

end

mutual

/-- Source `_get_values` / `value_args` of a condition tree: a sequence collects
the values of its condition elements (junction tokens contribute
nothing), in encounter order. -/
def CondNode.values : CondNode → List PyVal
  | .cond c => c.getValues
  | .junc _ => []
  | .seq items => CondNode.listValues items
  | .group _ cs => CondNode.listValues cs

def CondNode.listValues : List CondNode → List PyVal
  | [] => []
  | x :: xs => x.values ++ CondNode.listValues xs

end

/-- Source `QueryConditionSequence.and_` / `.or_`: when the sequence is not
ready for a new condition, append the junction and return the sequence;
otherwise raise `QueryConditionError("Condition sequence out of order.")`. -/
def seqJunction (j : Junction) (items : List CondNode) : Except String (List CondNode) :=
  if !(seqIsReady items) then Except.ok (items ++ [CondNode.junc j])
  else Except.error "Condition sequence out of order."

/-- Source `_BaseQueryConditionSequence.where`: append the given condition. -/
def seqWhere (items : List CondNode) (c : QueryCondition) : List CondNode :=
  items ++ [CondNode.cond c]

/-- A `_QueryValueMap`: an insertion-ordered mapping from column name to
value (a Python dict subclass). -/
abbrev ValueMap := List (String × PyVal)

/-- Source `_QueryValueMap.column_str`: `"(%s)" % ", ".join(self.keys())`. -/
def columnStr (m : ValueMap) : String :=
  "(" ++ pyJoin ", " (m.map Prod.fst) ++ ")"

/-- Source `_QueryValueMap.values_str`: `"(%s)" % ", ".join("?" * len(self))`. -/
def valuesStr (m : ValueMap) : String :=
  "(" ++ pyJoin ", " (List.replicate m.length "?") ++ ")"

/-- Source `_QueryValueMap.value_set_str`:
`", ".join(map(lambda key: "%s = ?" % key, self.keys()))`. -/
def valueSetStr (m : ValueMap) : String :=
  pyJoin ", " (m.map (fun kv => kv.1 ++ " = ?"))

/-- Source `_QueryValueMap._get_values`: `tuple(self.values())`. -/
def mapValues (m : ValueMap) : List PyVal := m.map Prod.snd

/-- A `_QueryValueMapGroup`: a list of value maps (the instance view of
its `_value_maps` list). -/
abbrev ValueMapGroup := List ValueMap

/-- Source `_QueryValueMapGroup.column_str`: the first map's column string, or
`""` when the group is empty. -/
def groupColumnStr (g : ValueMapGroup) : String :=
  match g with
  | [] => ""
  | m :: _ => columnStr m

/-- Source `_QueryValueMapGroup.values_str`:
`", ".join(map(lambda vm: vm.values_str, self._value_maps))`. -/
def groupValuesStr (g : ValueMapGroup) : String :=
  pyJoin ", " (g.map valuesStr)

/-- Source `_QueryValueMapGroup._get_values`: a generator yielding each map's
value tuple, one tuple per map, in row order. -/
def groupValues (g : ValueMapGroup) : List (List PyVal) :=
  g.map mapValues

/-- The builder's `_value_map` field after `set_value`: a list argument
becomes a group, any other mapping a single map. -/
inductive ValuePayload where
  | single : ValueMap → ValuePayload
  | group : ValueMapGroup → ValuePayload
  deriving Repr

/-- An element of a built argument tuple.  Single maps and conditions
contribute scalar values; a value-map group contributes one tuple per
row (its generator yields tuples, which `_get_args` keeps as elements). -/
inductive Arg where
  | val : PyVal → Arg
  | row : List PyVal → Arg
  deriving Repr

/-- Source `value_args` of the builder's value payload as seen by `_get_args`
(`list(f_map[arg].value_args)`). -/
def payloadArgs : ValuePayload → List Arg
  | .single m => (mapValues m).map Arg.val
  | .group g => (groupValues g).map Arg.row

/-- Source `_QueryArgs` enum: the kinds of arguments a builder needs. -/
inductive QueryArgsKind where
  | VALUE
  | WHERE
  deriving Repr, DecidableEq

/-- The four data-query builder classes of queries.py. -/
inductive BuilderKind where
  | insert
  | select
  | update
  | delete
  deriving Repr, DecidableEq

/-- State of an `AbstractQueryBuilder`: table name (None when missing),
optional value payload, optional where-condition tree. -/
structure Builder where
  kind : BuilderKind
  tableName : Option String
  valueMap : Option ValuePayload
  whereConditions : Option CondNode

/-- Source `_get_args_needed` of each concrete builder. -/
def argsNeeded : BuilderKind → List QueryArgsKind
  | .insert => [.VALUE]
  | .select => [.WHERE]
  | .update => [.VALUE, .WHERE]
  | .delete => [.WHERE]

/-- Python `str.strip()` on a character list: drop leading and trailing
whitespace. -/
def isPySpace (c : Char) : Bool :=
  c = ' ' || c = '\t' || c = '\n' || c = '\r' || c = '\x0b' || c = '\x0c'

def pstripList (l : List Char) : List Char :=
  ((l.dropWhile isPySpace).reverse.dropWhile isPySpace).reverse

/-- Python `str.strip()`. -/
def pstrip (s : String) : String := ⟨pstripList s.data⟩

/-- Source `AbstractQueryBuilder._get_columns_str`. -/
def Builder.getColumnsStr (b : Builder) : String :=
  match b.valueMap with
  | some (.single m) => columnStr m
  | some (.group g) => groupColumnStr g
  | Option.none => "*"

/-- Source `AbstractQueryBuilder._get_values_str`. -/
def Builder.getValuesStr (b : Builder) : String :=
  match b.valueMap with
  | some (.single m) => valuesStr m
  | some (.group g) => groupValuesStr g
  | Option.none => ""

/-- Source `AbstractQueryBuilder._get_value_set_str`: the single map's SET
string; `""` unless the payload `isinstance(..., _QueryValueMap)`. -/
def Builder.getValueSetStr (b : Builder) : String :=
  match b.valueMap with
  | some (.single m) => valueSetStr m
  | _ => ""

/-- Source `AbstractQueryBuilder._get_where_str` (always called with the
default `'WHERE'` as first part): `('%s %s' % ('WHERE', str(w))).strip()`. -/
def Builder.getWhereStr (b : Builder) : String :=
  match b.whereConditions with
  | some w => pstrip ("WHERE " ++ w.toStr)
  | Option.none => ""

/-- One kind's contribution inside `_get_args`
(`list(f_map[arg].value_args)` when present, `None` otherwise). -/
def Builder.getArgsPart (b : Builder) : QueryArgsKind → Option (List Arg)
  | .VALUE => b.valueMap.map payloadArgs
  | .WHERE => b.whereConditions.map (fun w => w.values.map Arg.val)

/-- Source `AbstractQueryBuilder._get_args`: walk the needed kinds in order,
skipping absent or empty parts, and extend the result tuple. -/
def Builder.getArgs (b : Builder) (qArgs : List QueryArgsKind) : List Arg :=
  qArgs.foldl
    (fun acc a =>
      match b.getArgsPart a with
      | Option.none => acc
      | some part => if part.length = 0 then acc else acc ++ part)
    []

/-- Source `_get_query_str` of each concrete builder, at a given table name. -/
def Builder.getQueryStr (b : Builder) (t : String) : String :=
  match b.kind with
  | .insert => "INSERT INTO " ++ t ++ " " ++ b.getColumnsStr ++ " VALUES " ++ b.getValuesStr
  | .select => pstrip ("SELECT " ++ b.getColumnsStr ++ " FROM " ++ t ++ " " ++ b.getWhereStr)
  | .update => pstrip ("UPDATE " ++ t ++ " SET " ++ b.getValueSetStr ++ " " ++ b.getWhereStr)
  | .delete =>
    match b.whereConditions with
    | some _ => "DELETE FROM " ++ t ++ " " ++ b.getWhereStr
    | Option.none => ""

/-- The `Query` dataclass: SQL text, argument tuple, optional error. -/
structure Query where
  query : Option String
  args : Option (List Arg)
  error : Option String
  deriving Repr

/-- Source `AbstractQueryBuilder.build`: a Query with text and args when the
table name is not `None`, else a Query carrying only the error. -/
def Builder.build (b : Builder) : Query :=
  match b.tableName with
  | some t => ⟨some (b.getQueryStr t), some (b.getArgs (argsNeeded b.kind)), Option.none⟩
  | Option.none => ⟨Option.none, Option.none, some "No table name provided."⟩

/-- Number of positional placeholders in a SQL string. -/
def countQ (s : String) : Nat := s.data.countP (fun c => c = '?')

/-- A string containing no placeholder character. -/
def noQ (s : String) : Bool := s.data.all (fun c => !(c = '?'))

theorem countQ_append (a b : String) : countQ (a ++ b) = countQ a + countQ b := by
  simp [countQ]

theorem countQ_of_noQ (s : String) (h : noQ s = true) : countQ s = 0 := by
  simp only [noQ, List.all_eq_true] at h
  simp only [countQ, List.countP_eq_zero]
  intro a ha
  simpa using h a ha

theorem countP_dropWhile_space (l : List Char) :
    (l.dropWhile isPySpace).countP (fun c => c = '?') = l.countP (fun c => c = '?') := by
  induction l with
  | nil => rfl
  | cons x xs ih =>
    by_cases hp : isPySpace x = true
    · have hx : ¬((fun c => decide (c = '?')) x = true) := by
        simp only [decide_eq_true_eq]
        intro e
        subst e
        simp [isPySpace] at hp
      rw [List.dropWhile_cons]
      simp only [hp, if_true, ih, List.countP_cons]
      simp only [Bool.not_eq_true] at hx
      simp [hx]
    · rw [List.dropWhile_cons]
      simp [hp]

theorem countQ_pstrip (s : String) : countQ (pstrip s) = countQ s := by
  simp only [countQ, pstrip, pstripList]
  rw [List.countP_reverse, countP_dropWhile_space, List.countP_reverse,
    countP_dropWhile_space]

theorem countQ_pyJoin (sep : String) (hs : countQ sep = 0) :
    ∀ ss : List String, countQ (pyJoin sep ss) = (ss.map countQ).sum
  | [] => by simp [pyJoin, countQ]
  | [x] => by simp [pyJoin]
  | x :: y :: xs => by
    have ih := countQ_pyJoin sep hs (y :: xs)
    simp only [pyJoin, countQ_append, hs, ih, List.map_cons, List.sum_cons]
    omega

theorem countQ_placeholders (n : Nat) :
    countQ (pyJoin ", " (List.replicate n "?")) = n := by
  rw [countQ_pyJoin ", " (by rfl)]
  simp only [List.map_replicate]
  have : countQ "?" = 1 := rfl
  rw [this]
  simp

theorem sum_map_ones {α : Type} (l : List α) (g : α → Nat)
    (h : ∀ x ∈ l, g x = 1) : (l.map g).sum = l.length := by
  induction l with
  | nil => rfl
  | cons x xs ih =>
    simp only [List.map_cons, List.sum_cons, List.length_cons]
    rw [h x (by simp), ih (fun y hy => h y (by simp [hy]))]
    omega

theorem sum_map_zeros {α : Type} (l : List α) (g : α → Nat)
    (h : ∀ x ∈ l, g x = 0) : (l.map g).sum = 0 := by
  induction l with
  | nil => rfl
  | cons x xs ih =>
    simp only [List.map_cons, List.sum_cons]
    rw [h x (by simp), ih (fun y hy => h y (by simp [hy]))]

/-- All keys of a value map are placeholder-free. -/
def mapOK (m : ValueMap) : Bool := m.all (fun kv => noQ kv.1)

theorem countQ_columnStr (m : ValueMap) (h : mapOK m = true) :
    countQ (columnStr m) = 0 := by
  simp only [columnStr, countQ_append]
  rw [countQ_pyJoin ", " (by rfl)]
  rw [List.map_map]
  rw [sum_map_zeros]
  · rfl
  · intro kv hkv
    simp only [mapOK, List.all_eq_true] at h
    exact countQ_of_noQ kv.1 (h kv hkv)

theorem countQ_valuesStr (m : ValueMap) : countQ (valuesStr m) = m.length := by
  simp only [valuesStr, countQ_append, countQ_placeholders]
  have hp : countQ "(" = 0 := rfl
  have hq : countQ ")" = 0 := rfl
  omega

theorem countQ_valueSetStr (m : ValueMap) (h : mapOK m = true) :
    countQ (valueSetStr m) = m.length := by
  simp only [valueSetStr]
  rw [countQ_pyJoin ", " (by rfl), List.map_map]
  rw [sum_map_ones]
  intro kv hkv
  simp only [mapOK, List.all_eq_true] at h
  simp only [Function.comp_apply, countQ_append]
  rw [countQ_of_noQ kv.1 (h kv hkv)]
  rfl

theorem countQ_opValue (op : Operator) : countQ op.value = 0 := by
  cases op <;> rfl

theorem countQ_juncValue (j : Junction) : countQ j.value = 0 := by
  cases j <;> rfl

/-- Well-formedness of a single condition for the placeholder/argument
count correspondence: column present and placeholder-free, value set,
and a list value only under IN / NOT IN. -/
def condOK (c : QueryCondition) : Bool :=
  (match c.column with
    | some col => noQ col
    | Option.none => false) &&
  (match c.value with
    | .none => false
    | .list _ => isInOp c.op
    | _ => true)

mutual

/-- Well-formedness of a condition tree: every condition is `condOK` and
no (sub)sequence ends in a dangling junction. -/
def condNodeOK : CondNode → Bool
  | .cond c => condOK c
  | .junc _ => true
  | .seq items => !(seqIsReady items) && condListOK items
  | .group _ cs => condListOK cs

def condListOK : List CondNode → Bool
  | [] => true
  | x :: xs => condNodeOK x && condListOK xs

end

theorem countQ_cond (c : QueryCondition) (h : condOK c = true) :
    countQ c.toStr = c.getValues.length := by
  obtain ⟨col, val, op⟩ := c
  simp only [condOK, Bool.and_eq_true] at h
  obtain ⟨h1, h2⟩ := h
  cases col with
  | none => simp at h1
  | some colName =>
    cases val with
    | none => simp at h2
    | int i =>
      simp only [QueryCondition.toStr, QueryCondition.getValues, countQ_append,
        countQ_of_noQ colName h1, countQ_opValue]
      rfl
    | str s =>
      simp only [QueryCondition.toStr, QueryCondition.getValues, countQ_append,
        countQ_of_noQ colName h1, countQ_opValue]
      rfl
    | list l =>
      simp only [QueryCondition.toStr, QueryCondition.getValues]
      rw [if_pos h2]
      simp only [countQ_append, countQ_of_noQ colName h1, countQ_opValue,
        countQ_placeholders]
      have hp : countQ "(" = 0 := rfl
      have hq : countQ ")" = 0 := rfl
      have hsp : countQ " " = 0 := rfl
      omega

mutual

/-- For a well-formed condition tree, the rendered placeholder count
matches the number of collected argument values. -/
theorem countQ_node (n : CondNode) (h : condNodeOK n = true) :
    countQ n.toStr = n.values.length := by
  cases n with
  | cond c =>
    simp only [condNodeOK] at h
    exact countQ_cond c h
  | junc j =>
    simp only [CondNode.toStr, CondNode.values, countQ_juncValue, List.length_nil]
  | seq items =>
    simp only [condNodeOK, Bool.and_eq_true, Bool.not_eq_true'] at h
    obtain ⟨h1, h2⟩ := h
    simp only [CondNode.toStr, CondNode.values, h1, Bool.false_eq_true, if_false]
    exact (countQ_list items h2).1
  | group j cs =>
    simp only [condNodeOK] at h
    simp only [CondNode.toStr, CondNode.values, countQ_append]
    rw [countQ_pyJoin j.value (countQ_juncValue j), (countQ_list cs h).2]
    have hp : countQ "(" = 0 := rfl
    have hq : countQ ")" = 0 := rfl
    omega

theorem countQ_list (l : List CondNode) (h : condListOK l = true) :
    countQ (CondNode.listStr l) = (CondNode.listValues l).length ∧
      ((CondNode.listStrs l).map countQ).sum = (CondNode.listValues l).length := by
  cases l with
  | nil => exact ⟨rfl, rfl⟩
  | cons x xs =>
    simp only [condListOK, Bool.and_eq_true] at h
    obtain ⟨h1, h2⟩ := h
    have ihx := countQ_node x h1
    have ihl := countQ_list xs h2
    refine ⟨?_, ?_⟩
    · simp only [CondNode.listStr, CondNode.listValues, countQ_append, ihx, ihl.1,
        List.length_append]
    · simp only [CondNode.listStrs, CondNode.listValues, List.map_cons, List.sum_cons,
        ihx, ihl.2, List.length_append]

end

theorem getArgs_foldl (b : Builder) (l : List QueryArgsKind) (acc : List Arg) :
    List.foldl
      (fun acc a =>
        match b.getArgsPart a with
        | Option.none => acc
        | some part => if part.length = 0 then acc else acc ++ part)
      acc l = acc ++ (l.map (fun a => (b.getArgsPart a).getD [])).flatten := by
  induction l generalizing acc with
  | nil => simp
  | cons a l ih =>
    simp only [List.foldl_cons, List.map_cons, List.flatten_cons, ih]
    cases hp : b.getArgsPart a with
    | none => simp
    | some part =>
      cases hl : part.length with
      | zero =>
        have : part = [] := List.length_eq_zero.mp hl
        subst this
        simp
      | succ n =>
        simp only [hl]
        simp [List.append_assoc]

/-- Source `_get_args` is the plain concatenation of the argument lists of the
needed kinds, in the declared order (the absent/empty skip does not
change the result). -/
theorem getArgs_eq_join (b : Builder) (l : List QueryArgsKind) :
    b.getArgs l = (l.map (fun a => (b.getArgsPart a).getD [])).flatten := by
  simpa using getArgs_foldl b l []

/-- Well-formedness of the where slot: any condition tree present must be
`condNodeOK`. -/
def whereOK : Option CondNode → Bool
  | some w => condNodeOK w
  | Option.none => true

/-- Well-formedness of the value slot for the placeholder/argument count
correspondence: absent or a single map with placeholder-free keys (a
multi-row group breaks the correspondence). -/
def payloadOK : Option ValuePayload → Bool
  | some (.single m) => mapOK m
  | some (.group _) => false
  | Option.none => true

/-- Builder states for which placeholder count equals argument count:
table name present and placeholder-free, value slot a single map (or
absent), where slot well-formed. -/
def builderOK (b : Builder) : Bool :=
  (match b.tableName with
    | some t => noQ t
    | Option.none => false) &&
  payloadOK b.valueMap && whereOK b.whereConditions

theorem countQ_getWhereStr (b : Builder) (h : whereOK b.whereConditions = true) :
    countQ b.getWhereStr = ((b.getArgsPart .WHERE).getD []).length := by
  cases hw : b.whereConditions with
  | none =>
    have h1 : b.getWhereStr = "" := by simp [Builder.getWhereStr, hw]
    have h2 : b.getArgsPart .WHERE = Option.none := by simp [Builder.getArgsPart, hw]
    rw [h1, h2]
    rfl
  | some wc =>
    have hok : condNodeOK wc = true := by rw [hw] at h; exact h
    have h1 : b.getWhereStr = pstrip ("WHERE " ++ wc.toStr) := by
      simp [Builder.getWhereStr, hw]
    have h2 : b.getArgsPart .WHERE = some (wc.values.map Arg.val) := by
      simp [Builder.getArgsPart, hw]
    rw [h1, h2, countQ_pstrip, countQ_append, countQ_node wc hok]
    simp only [Option.getD_some, List.length_map]
    have : countQ "WHERE " = 0 := rfl
    omega

theorem countQ_getColumnsStr (b : Builder) (h : payloadOK b.valueMap = true) :
    countQ b.getColumnsStr = 0 := by
  cases hv : b.valueMap with
  | none =>
    have h1 : b.getColumnsStr = "*" := by simp [Builder.getColumnsStr, hv]
    rw [h1]
    rfl
  | some p =>
    cases p with
    | single m =>
      have hm : mapOK m = true := by rw [hv] at h; exact h
      have h1 : b.getColumnsStr = columnStr m := by simp [Builder.getColumnsStr, hv]
      rw [h1]
      exact countQ_columnStr m hm
    | group g =>
      rw [hv] at h
      simp [payloadOK] at h

theorem countQ_getValuesStr (b : Builder) (h : payloadOK b.valueMap = true) :
    countQ b.getValuesStr = ((b.getArgsPart .VALUE).getD []).length := by
  cases hv : b.valueMap with
  | none =>
    have h1 : b.getValuesStr = "" := by simp [Builder.getValuesStr, hv]
    have h2 : b.getArgsPart .VALUE = Option.none := by simp [Builder.getArgsPart, hv]
    rw [h1, h2]
    rfl
  | some p =>
    cases p with
    | single m =>
      have h1 : b.getValuesStr = valuesStr m := by simp [Builder.getValuesStr, hv]
      have h2 : b.getArgsPart .VALUE = some (payloadArgs (.single m)) := by
        simp [Builder.getArgsPart, hv]
      rw [h1, h2, countQ_valuesStr]
      simp [payloadArgs, mapValues]
    | group g =>
      rw [hv] at h
      simp [payloadOK] at h

theorem countQ_getValueSetStr (b : Builder) (h : payloadOK b.valueMap = true) :
    countQ b.getValueSetStr = ((b.getArgsPart .VALUE).getD []).length := by
  cases hv : b.valueMap with
  | none =>
    have h1 : b.getValueSetStr = "" := by simp [Builder.getValueSetStr, hv]
    have h2 : b.getArgsPart .VALUE = Option.none := by simp [Builder.getArgsPart, hv]
    rw [h1, h2]
    rfl
  | some p =>
    cases p with
    | single m =>
      have hm : mapOK m = true := by rw [hv] at h; exact h
      have h1 : b.getValueSetStr = valueSetStr m := by
        simp [Builder.getValueSetStr, hv]
      have h2 : b.getArgsPart .VALUE = some (payloadArgs (.single m)) := by
        simp [Builder.getArgsPart, hv]
      rw [h1, h2, countQ_valueSetStr m hm]
      simp [payloadArgs, mapValues]
    | group g =>
      rw [hv] at h
      simp [payloadOK] at h

/-- C2 (amended): for every Query built with no error from a builder
whose value slot is a single map (or absent) with placeholder-free keys,
whose table name is placeholder-free, and whose where tree is
well-formed (every condition has column and value set, list values only
under IN/NOT IN, no sequence ending in a dangling junction), the number
of placeholders in the SQL text equals the length of the argument
tuple.  The claim as stated fails for unset-value conditions and for
multi-row value groups. -/
theorem c2_amended_placeholder_count (b : Builder) (h : builderOK b = true) :
    countQ (((b.build).query).getD "") = (((b.build).args).getD []).length := by
  simp only [builderOK, Bool.and_eq_true] at h
  obtain ⟨⟨hT, hV⟩, hW⟩ := h
  cases ht : b.tableName with
  | none =>
    rw [ht] at hT
    simp at hT
  | some t =>
    have hTq : noQ t = true := by rw [ht] at hT; exact hT
    have hbuild : b.build =
        ⟨some (b.getQueryStr t), some (b.getArgs (argsNeeded b.kind)), Option.none⟩ := by
      simp [Builder.build, ht]
    rw [hbuild]
    simp only [Option.getD_some]
    rw [getArgs_eq_join]
    cases hk : b.kind with
    | insert =>
      have hq : b.getQueryStr t =
          "INSERT INTO " ++ t ++ " " ++ b.getColumnsStr ++ " VALUES " ++ b.getValuesStr := by
        simp [Builder.getQueryStr, hk]
      rw [hq]
      simp only [argsNeeded, List.map_cons, List.map_nil, List.flatten_cons,
        List.flatten_nil, List.append_nil]
      simp only [countQ_append, countQ_of_noQ t hTq, countQ_getColumnsStr b hV,
        countQ_getValuesStr b hV]
      have c1 : countQ "INSERT INTO " = 0 := rfl
      have c2 : countQ " " = 0 := rfl
      have c3 : countQ " VALUES " = 0 := rfl
      omega
    | select =>
      have hq : b.getQueryStr t =
          pstrip ("SELECT " ++ b.getColumnsStr ++ " FROM " ++ t ++ " " ++ b.getWhereStr) := by
        simp [Builder.getQueryStr, hk]
      rw [hq]
      simp only [argsNeeded, List.map_cons, List.map_nil, List.flatten_cons,
        List.flatten_nil, List.append_nil]
      rw [countQ_pstrip]
      simp only [countQ_append, countQ_of_noQ t hTq, countQ_getColumnsStr b hV,
        countQ_getWhereStr b hW]
      have c1 : countQ "SELECT " = 0 := rfl
      have c2 : countQ " FROM " = 0 := rfl
      have c3 : countQ " " = 0 := rfl
      omega
    | update =>
      have hq : b.getQueryStr t =
          pstrip ("UPDATE " ++ t ++ " SET " ++ b.getValueSetStr ++ " " ++ b.getWhereStr) := by
        simp [Builder.getQueryStr, hk]
      rw [hq]
      simp only [argsNeeded, List.map_cons, List.map_nil, List.flatten_cons,
        List.flatten_nil, List.append_nil, List.length_append]
      rw [countQ_pstrip]
      simp only [countQ_append, countQ_of_noQ t hTq, countQ_getValueSetStr b hV,
        countQ_getWhereStr b hW]
      have c1 : countQ "UPDATE " = 0 := rfl
      have c2 : countQ " SET " = 0 := rfl
      have c3 : countQ " " = 0 := rfl
      omega
    | delete =>
      cases hw2 : b.whereConditions with
      | none =>
        have hq : b.getQueryStr t = "" := by simp [Builder.getQueryStr, hk, hw2]
        have h2 : b.getArgsPart .WHERE = Option.none := by
          simp [Builder.getArgsPart, hw2]
        rw [hq]
        simp only [argsNeeded, List.map_cons, List.map_nil, List.flatten_cons,
          List.flatten_nil, List.append_nil, h2]
        rfl
      | some wc =>
        have hq : b.getQueryStr t = "DELETE FROM " ++ t ++ " " ++ b.getWhereStr := by
          simp [Builder.getQueryStr, hk, hw2]
        rw [hq]
        simp only [argsNeeded, List.map_cons, List.map_nil, List.flatten_cons,
          List.flatten_nil, List.append_nil]
        simp only [countQ_append, countQ_of_noQ t hTq, countQ_getWhereStr b hW]
        have c1 : countQ "DELETE FROM " = 0 := rfl
        have c2 : countQ " " = 0 := rfl
        omega

/-!
State model of the shared class-level lists.  In the source,
`QueryConditionGroup._conditions = []` is a class attribute, and
`__init__` runs `self._conditions.extend(conditions)`, mutating the one
list shared by every instance (the same pattern appears on
`_BaseQueryConditionSequence._conditions` and
`_QueryValueMapGroup._value_maps`).  The shared list is modelled as
explicit state threaded through constructions; an instance keeps only
its own `_group_junction`.
-/

/-- Instance attributes of a `QueryConditionGroup` (the condition list
lives in shared class state). -/
structure GroupRef where
  groupJunction : Junction
  deriving Repr

/-- Source `QueryConditionGroup.__init__`: store the junction on the instance
and extend the shared class-level condition list. -/
def groupCreate (classConds : List CondNode) (j : Junction) (conds : List CondNode) :
    GroupRef × List CondNode :=
  (⟨j⟩, classConds ++ conds)

/-- Source `QueryConditionGroup.__str__`, reading the shared class-level list
in its current state. -/
def groupStrIn (classConds : List CondNode) (g : GroupRef) : String :=
  "(" ++ pyJoin g.groupJunction.value (CondNode.listStrs classConds) ++ ")"

/-- Source `QueryConditionGroup._get_values`, reading the shared class-level
list in its current state. -/
def groupValuesIn (classConds : List CondNode) : List PyVal :=
  CondNode.listValues classConds

/-!
Claim theorems.
-/

/-- C1: for every query builder, the built argument tuple is the
concatenation of the argument lists of the needed kinds in the declared
order (for UPDATE, the VALUE arguments before the WHERE arguments), and
for `UpdateQueryBuilder("t")` with value map `name -> "x"` and
where-condition `id = 5` the build yields
`UPDATE t SET name = ? WHERE id = ?` with arguments `("x", 5)`,
matching the placeholder order. -/
theorem c1_args_declared_order :
    (∀ b : Builder, b.getArgs (argsNeeded b.kind) =
      ((argsNeeded b.kind).map (fun a => (b.getArgsPart a).getD [])).flatten) ∧
    (∀ (tn : Option String) (vm : Option ValuePayload) (w : Option CondNode),
      (Builder.mk .update tn vm w).getArgs (argsNeeded .update) =
        (vm.map payloadArgs).getD [] ++
          (w.map (fun x => x.values.map Arg.val)).getD []) ∧
    (Builder.mk .update (some "t") (some (.single [("name", .str "x")]))
        (some (.cond ⟨some "id", .int 5, .EQUALS⟩))).build =
      ⟨some "UPDATE t SET name = ? WHERE id = ?",
       some [Arg.val (.str "x"), Arg.val (.int 5)], Option.none⟩ := by
  refine ⟨fun b => getArgs_eq_join b _, fun tn vm w => ?_, rfl⟩
  rw [getArgs_eq_join]
  simp [argsNeeded, Builder.getArgsPart]

/-- C2 counterexample: a select builder over table `t` whose
where-condition has an unset value builds with no error, SQL text
`SELECT * FROM t WHERE` containing zero placeholders, and an argument
tuple of length one — refuting the claimed placeholder/argument count
equality for condition trees with unset values. -/
theorem c2_counterexample :
    ((Builder.mk .select (some "t") Option.none
        (some (.cond ⟨some "id", PyVal.none, .EQUALS⟩))).build).error = Option.none ∧
    ((Builder.mk .select (some "t") Option.none
        (some (.cond ⟨some "id", PyVal.none, .EQUALS⟩))).build).query =
      some "SELECT * FROM t WHERE" ∧
    ((Builder.mk .select (some "t") Option.none
        (some (.cond ⟨some "id", PyVal.none, .EQUALS⟩))).build).args =
      some [Arg.val PyVal.none] ∧
    countQ "SELECT * FROM t WHERE" = 0 ∧
    [Arg.val PyVal.none].length = 1 :=
  ⟨rfl, rfl, rfl, rfl, rfl⟩

/-- C2 witness: the amended count equality applied to a concrete
well-formed update builder. -/
theorem c2_amended_witness :
    builderOK (Builder.mk .update (some "t") (some (.single [("name", .str "x")]))
        (some (.cond ⟨some "id", .int 5, .EQUALS⟩))) = true ∧
    countQ ((((Builder.mk .update (some "t") (some (.single [("name", .str "x")]))
        (some (.cond ⟨some "id", .int 5, .EQUALS⟩))).build).query).getD "") =
      ((((Builder.mk .update (some "t") (some (.single [("name", .str "x")]))
        (some (.cond ⟨some "id", .int 5, .EQUALS⟩))).build).args).getD []).length :=
  ⟨rfl, c2_amended_placeholder_count _ rfl⟩

/-- C3 counterexample: an empty-string table name passes the
`is not None` check, so build succeeds and yields the partially-valid
SQL text `SELECT * FROM` with no error. -/
theorem c3_counterexample :
    (Builder.mk .select (some "") Option.none Option.none).build =
      ⟨some "SELECT * FROM", some [], Option.none⟩ ∧
    ((Builder.mk .select (some "") Option.none Option.none).build).error =
      Option.none :=
  ⟨rfl, rfl⟩

/-- C3 (amended): only a missing (`None`) table name makes `build`
return the error Query carrying no SQL text; any present table name,
including the empty string, builds with the error field unset. -/
theorem c3_amended_missing_table (b : Builder) :
    (b.tableName = Option.none →
      b.build = ⟨Option.none, Option.none, some "No table name provided."⟩) ∧
    (∀ t, b.tableName = some t → (b.build).error = Option.none) := by
  constructor
  · intro h
    simp [Builder.build, h]
  · intro t h
    simp [Builder.build, h]

/-- C3 witness: the amended statement applied at concrete builders with
a missing and with a present table name. -/
theorem c3_amended_missing_table_witness :
    (Builder.mk .select Option.none Option.none Option.none).build =
      ⟨Option.none, Option.none, some "No table name provided."⟩ ∧
    ((Builder.mk .delete (some "") Option.none Option.none).build).error =
      Option.none :=
  ⟨(c3_amended_missing_table _).1 rfl, (c3_amended_missing_table _).2 "" rfl⟩

/-- C4: the shared class-level `_conditions` list makes two
independently created `QueryConditionGroup` instances alias one list:
after the second group is constructed, the first group renders
`(a = ? AND b = ?)` instead of its original `(a = ?)`, and its argument
tuple gains the second group's value — refuting per-instance
independence of the element lists. -/
theorem c4_class_level_aliasing :
    groupStrIn (groupCreate [] .AND [.cond ⟨some "a", .int 1, .EQUALS⟩]).2
        (groupCreate [] .AND [.cond ⟨some "a", .int 1, .EQUALS⟩]).1 = "(a = ?)" ∧
    groupStrIn
        (groupCreate (groupCreate [] .AND [.cond ⟨some "a", .int 1, .EQUALS⟩]).2
          .AND [.cond ⟨some "b", .int 2, .EQUALS⟩]).2
        (groupCreate [] .AND [.cond ⟨some "a", .int 1, .EQUALS⟩]).1 =
      "(a = ? AND b = ?)" ∧
    groupValuesIn
        (groupCreate (groupCreate [] .AND [.cond ⟨some "a", .int 1, .EQUALS⟩]).2
          .AND [.cond ⟨some "b", .int 2, .EQUALS⟩]).2 =
      [.int 1, .int 2] ∧
    ("(a = ? AND b = ?)" : String) ≠ "(a = ?)" := by
  refine ⟨rfl, rfl, rfl, ?_⟩
  decide

/-- C5: on a sequence whose last element is a Junction (in particular,
right after a successful `and_`/`or_`), a further `and_`/`or_` access
raises the ordering error instead of appending another junction. -/
theorem c5_second_junction_errors :
    (∀ (items : List CondNode) (j : Junction), seqIsReady items = true →
      seqJunction j items = Except.error "Condition sequence out of order.") ∧
    (∀ (items res : List CondNode) (j jj : Junction),
      seqJunction j items = Except.ok res →
      seqJunction jj res = Except.error "Condition sequence out of order.") := by
  constructor
  · intro items j h
    simp [seqJunction, h]
  · intro items res j jj h
    unfold seqJunction at h
    by_cases hr : seqIsReady items = true
    · simp [hr] at h
    · simp only [Bool.not_eq_true] at hr
      simp only [hr, Bool.not_false, if_true] at h
      have hres : res = items ++ [CondNode.junc j] := by
        cases h
        rfl
      have hready : seqIsReady res = true := by
        rw [hres]
        simp [seqIsReady, List.getLast?_concat]
      simp [seqJunction, hready]

/-- C5 witness: both parts applied to a concrete sequence ending in a
junction. -/
theorem c5_second_junction_errors_witness :
    seqJunction .OR [CondNode.cond ⟨some "a", .int 1, .EQUALS⟩, CondNode.junc .AND] =
      Except.error "Condition sequence out of order." ∧
    seqJunction .OR
        ([CondNode.cond ⟨some "a", .int 1, .EQUALS⟩] ++ [CondNode.junc .AND]) =
      Except.error "Condition sequence out of order." :=
  ⟨c5_second_junction_errors.1 _ .OR rfl,
   c5_second_junction_errors.2 [CondNode.cond ⟨some "a", .int 1, .EQUALS⟩] _ .AND .OR rfl⟩

/-- C6 counterexample: on a sequence whose last element is a condition
(not "ready for a new condition"), `and_` succeeds by appending the
junction — it does not raise the ordering error; the claim has the
polarity of the check inverted. -/
theorem c6_counterexample :
    seqJunction .AND [CondNode.cond ⟨some "a", .int 1, .EQUALS⟩] =
      Except.ok [CondNode.cond ⟨some "a", .int 1, .EQUALS⟩, CondNode.junc .AND] ∧
    seqJunction .AND [CondNode.cond ⟨some "a", .int 1, .EQUALS⟩] ≠
      Except.error "Condition sequence out of order." := by
  refine ⟨rfl, ?_⟩
  intro h
  have h2 : (Except.ok [CondNode.cond ⟨some "a", .int 1, .EQUALS⟩, CondNode.junc .AND] :
      Except String (List CondNode)) = Except.error "Condition sequence out of order." := h
  exact Except.noConfusion h2

/-- C6 (amended): calling `and_`/`or_` on a sequence whose last element
is a condition succeeds, appending the junction and returning the
sequence; the ordering error is raised exactly when the last element is
already a Junction. -/
theorem c6_amended_junction_appends (items : List CondNode) (j : Junction)
    (h : seqIsReady items = false) :
    seqJunction j items = Except.ok (items ++ [CondNode.junc j]) := by
  simp [seqJunction, h]

/-- C6 witness: the amended statement at a concrete one-condition
sequence. -/
theorem c6_amended_junction_appends_witness :
    seqJunction .OR [CondNode.cond ⟨some "b", .int 2, .EQUALS⟩] =
      Except.ok ([CondNode.cond ⟨some "b", .int 2, .EQUALS⟩] ++ [CondNode.junc .OR]) :=
  c6_amended_junction_appends _ .OR rfl

/-- C7: a delete builder with a table name but no where-condition
renders the empty string (with an empty argument tuple and no error) —
an unconditional table-wide delete is never built. -/
theorem c7_delete_requires_where (t : String) (vm : Option ValuePayload) :
    (Builder.mk .delete (some t) vm Option.none).build =
      ⟨some "", some [], Option.none⟩ := rfl

/-- C8 counterexample: for a multi-row insert the built argument tuple
is a tuple of per-row tuples, not the flat row-major list of bound
values the claim describes (its elements are row tuples, so its length
is the row count, not the value count). -/
theorem c8_counterexample :
    (Builder.mk .insert (some "t")
        (some (.group [[("a", .int 1), ("b", .int 2)], [("a", .int 3), ("b", .int 4)]]))
        Option.none).build =
      ⟨some "INSERT INTO t (a, b) VALUES (?, ?), (?, ?)",
       some [Arg.row [.int 1, .int 2], Arg.row [.int 3, .int 4]], Option.none⟩ ∧
    ((Builder.mk .insert (some "t")
        (some (.group [[("a", .int 1), ("b", .int 2)], [("a", .int 3), ("b", .int 4)]]))
        Option.none).build).args ≠
      some [Arg.val (.int 1), Arg.val (.int 2), Arg.val (.int 3), Arg.val (.int 4)] := by
  refine ⟨rfl, ?_⟩
  intro h
  have h2 : some [Arg.row ([PyVal.int 1, PyVal.int 2]), Arg.row ([PyVal.int 3, PyVal.int 4])] =
      some [Arg.val (.int 1), Arg.val (.int 2), Arg.val (.int 3), Arg.val (.int 4)] := h
  simp only [Option.some.injEq, List.cons.injEq] at h2
  exact Arg.noConfusion h2.1

/-- C8 (amended): for an insert builder over a nonempty list of value
maps, the SQL column list derives from the first map only, the VALUES
clause joins one placeholder tuple per row with `, ` in row order, and
the built argument tuple holds one per-row tuple per map, rows in
order and each row's values in its column insertion order (flat
row-major order only after flattening the row tuples). -/
theorem c8_amended_multirow_insert (t : String) (m : ValueMap) (ms : List ValueMap) :
    (Builder.mk .insert (some t) (some (.group (m :: ms))) Option.none).build =
      ⟨some ("INSERT INTO " ++ t ++ " " ++ columnStr m ++ " VALUES " ++
         pyJoin ", " ((m :: ms).map valuesStr)),
       some ((m :: ms).map (fun vm => Arg.row (mapValues vm))), Option.none⟩ := by
  have hargs : (Builder.mk .insert (some t) (some (.group (m :: ms)))
      Option.none).getArgs [.VALUE] =
      (m :: ms).map (fun vm => Arg.row (mapValues vm)) := by
    rw [getArgs_eq_join]
    simp [Builder.getArgsPart, payloadArgs, groupValues, List.map_map, Function.comp]
  have hbuild : (Builder.mk .insert (some t) (some (.group (m :: ms)))
      Option.none).build =
      ⟨some ("INSERT INTO " ++ t ++ " " ++ columnStr m ++ " VALUES " ++
         pyJoin ", " ((m :: ms).map valuesStr)),
       some ((Builder.mk .insert (some t) (some (.group (m :: ms)))
         Option.none).getArgs [.VALUE]), Option.none⟩ := rfl
  rw [hbuild, hargs]

/-- C9 counterexample: an update builder whose `set_value` received a
list (a multi-row group) is silently answered: `_get_value_set_str`
returns the empty string, and the build succeeds with no error,
producing `UPDATE t SET  WHERE id = ?` with an empty SET clause. -/
theorem c9_counterexample :
    (Builder.mk .update (some "t") (some (.group [[("a", .int 1)]]))
        (some (.cond ⟨some "id", .int 5, .EQUALS⟩))).getValueSetStr = "" ∧
    (Builder.mk .update (some "t") (some (.group [[("a", .int 1)]]))
        (some (.cond ⟨some "id", .int 5, .EQUALS⟩))).build =
      ⟨some "UPDATE t SET  WHERE id = ?",
       some [Arg.row [.int 1], Arg.val (.int 5)], Option.none⟩ ∧
    ((Builder.mk .update (some "t") (some (.group [[("a", .int 1)]]))
        (some (.cond ⟨some "id", .int 5, .EQUALS⟩))).build).error = Option.none :=
  ⟨rfl, rfl, rfl⟩

/-- C9 (amended): requesting the SET-clause string with a multi-row
group payload is answered silently with the empty string by the
builder's `isinstance` guard, and an UpdateQueryBuilder whose
`set_value` received a list builds successfully (error unset, SQL text
present) with an empty SET clause; only direct attribute access on the
group object itself lacks `value_set_str`. -/
theorem c9_amended_group_set_clause (t : String) (g : ValueMapGroup)
    (w : Option CondNode) :
    (Builder.mk .update (some t) (some (.group g)) w).getValueSetStr = "" ∧
    ((Builder.mk .update (some t) (some (.group g)) w).build).error = Option.none ∧
    ((Builder.mk .update (some t) (some (.group g)) w).build).query =
      some ((Builder.mk .update (some t) (some (.group g)) w).getQueryStr t) :=
  ⟨rfl, rfl, rfl⟩

theorem dropWhile_space_keep (a : Char) (l : List Char) (ha : isPySpace a = false) :
    (a :: l).dropWhile isPySpace = a :: l := by
  rw [List.dropWhile_cons]
  simp [ha]

/-- Stripping leaves a list unchanged when its first and last characters
are not whitespace. -/
theorem pstripList_keep (a b : Char) (mid : List Char)
    (ha : isPySpace a = false) (hb : isPySpace b = false) :
    pstripList (a :: (mid ++ [b])) = a :: (mid ++ [b]) := by
  unfold pstripList
  rw [dropWhile_space_keep a (mid ++ [b]) ha]
  have h1 : (a :: (mid ++ [b])).reverse = b :: (mid.reverse ++ [a]) := by
    simp
  rw [h1, dropWhile_space_keep b (mid.reverse ++ [a]) hb]
  have h2 : (b :: (mid.reverse ++ [a])).reverse = a :: (mid ++ [b]) := by
    simp
  rw [h2]

/-- C10: a select builder whose where-condition has an unset value
builds SQL text ending in the bare keyword WHERE with no predicate,
while the argument tuple still holds the single element None. -/
theorem c10_unset_condition_bare_where (t colName : String) (op : Operator) :
    (Builder.mk .select (some t) Option.none
        (some (.cond ⟨some colName, PyVal.none, op⟩))).build =
      ⟨some ("SELECT * FROM " ++ t ++ " WHERE"), some [Arg.val PyVal.none],
       Option.none⟩ := by
  have hbuild : (Builder.mk .select (some t) Option.none
      (some (.cond ⟨some colName, PyVal.none, op⟩))).build =
      ⟨some (pstrip ("SELECT " ++ "*" ++ " FROM " ++ t ++ " " ++ "WHERE")),
       some [Arg.val PyVal.none], Option.none⟩ := rfl
  rw [hbuild]
  simp only [Query.mk.injEq, Option.some.injEq, and_true]
  apply String.ext
  show pstripList (("SELECT " ++ "*" ++ " FROM " ++ t ++ " " ++ "WHERE").data) =
    ("SELECT * FROM " ++ t ++ " WHERE").data
  have hd : ("SELECT " ++ "*" ++ " FROM " ++ t ++ " " ++ "WHERE").data =
      'S' :: (("ELECT * FROM ".data ++ (t.data ++ " WHER".data)) ++ ['E']) := by
    simp
  have hd2 : ("SELECT * FROM " ++ t ++ " WHERE").data =
      'S' :: (("ELECT * FROM ".data ++ (t.data ++ " WHER".data)) ++ ['E']) := by
    simp
  rw [hd, hd2]
  exact pstripList_keep 'S' 'E' _ rfl rfl

end Squeeb
